import Mathlib

/-!
Verification development for the content-repurposing pipeline
(content_fetcher.py, text_processor.py, gemini_handler.py, templates/prompts.py,
repurposer.py).

Python strings are embedded as List Char.  Python float token estimates
(len(paragraph) / 4 compared against max_tokens) are embedded in exact
arithmetic scaled by 4: the running counter holds the summed character count
and is compared against 4 * max_tokens, which agrees with the float
comparison in the exact regime the program operates in.
-/

/-- Convert a Lean string literal to the List Char representation used
throughout this development. -/
def toL (s : String) : List Char := s.toList

/-- Whitespace predicate used for the regex class \s and for str.strip.
Restricted to the ASCII whitespace characters (space, tab, newline,
carriage return, vertical tab, form feed); the Python originals also match
some rarer Unicode whitespace, which none of the properties here depend on. -/
def isSpace (c : Char) : Bool :=
  c = ' ' || c = '\t' || c = '\n' || c = '\r' || c = '\x0b' || c = '\x0c'

/-- One-pass implementation of re.sub(r"\s+", " ", text): every maximal run
of whitespace characters is replaced by a single space.  The Bool flag
records whether the previous character was inside a whitespace run. -/
def collapseWSAux : Bool → List Char → List Char
  | _, [] => []
  | inRun, c :: rest =>
    if isSpace c then
      if inRun then collapseWSAux true rest
      else ' ' :: collapseWSAux true rest
    else c :: collapseWSAux false rest

/-- First substitution of TextProcessor.clean_text: re.sub(r"\s+", " ", text). -/
def collapseWS (l : List Char) : List Char := collapseWSAux false l

/-- Action of the substitution re.sub(r"\n\s*\n", "\n\n", ...) on one maximal
whitespace run: scanning finds a match exactly when the run contains at least
two newlines, and greedy matching with the final backtracked newline replaces
the segment from the first newline of the run to its last newline by two
newlines. -/
def collapseRun (run : List Char) : List Char :=
  if 2 ≤ run.count '\n' then
    run.takeWhile (fun c => c ≠ '\n') ++ '\n' :: '\n' ::
      ((run.reverse.takeWhile (fun c => c ≠ '\n')).reverse)
  else run

/-- One-pass worker for re.sub(r"\n\s*\n", "\n\n", text): buffer the current
maximal whitespace run (in reverse) and flush it through collapseRun at each
non-whitespace character and at the end of the input. -/
def subBlankAux : List Char → List Char → List Char
  | [], buf => collapseRun buf.reverse
  | c :: rest, buf =>
    if isSpace c then subBlankAux rest (c :: buf)
    else collapseRun buf.reverse ++ c :: subBlankAux rest []

/-- Second substitution of TextProcessor.clean_text: re.sub(r"\n\s*\n", "\n\n", text). -/
def subBlank (l : List Char) : List Char := subBlankAux l []

/-- Embedding of Python str.strip(): drop whitespace from both ends. -/
def strip (l : List Char) : List Char :=
  ((l.dropWhile isSpace).reverse.dropWhile isSpace).reverse

/-- Embedding of TextProcessor.clean_text: collapse whitespace runs, normalize
blank lines, then strip the ends. -/
def clean_text (text : List Char) : List Char :=
  strip (subBlank (collapseWS text))

/-- One-pass worker for re.split(r"\n\n+", text).  The accumulator holds the
current field in reverse; pending counts the consecutive newlines read but not
yet classified (two or more pending newlines form a separator, a single
pending newline belongs to the current field). -/
def splitParasAux : List Char → List Char → Nat → List (List Char)
  | [], acc, pending =>
    if 2 ≤ pending then [acc.reverse, []]
    else [acc.reverse ++ List.replicate pending '\n']
  | c :: rest, acc, pending =>
    if c = '\n' then splitParasAux rest acc (pending + 1)
    else if 2 ≤ pending then acc.reverse :: splitParasAux rest [c] 0
    else splitParasAux rest (c :: (List.replicate pending '\n' ++ acc)) 0

/-- Embedding of re.split(r"\n\n+", text) used by TextProcessor.chunk_text. -/
def splitParas (l : List Char) : List (List Char) := splitParasAux l [] 0

/-- The paragraph-accumulation loop of TextProcessor.chunk_text.  curCount is
the running character count of the current chunk (4 times the float token
estimate); the guard curCount + p.length > 4 * maxTokens is the exact form of
current_token_count + paragraph_tokens > max_tokens. -/
def chunkLoop (maxTokens : Nat) : List (List Char) → List (List Char) → List Char → Nat → List (List Char)
  | [], chunks, cur, _ => if cur ≠ [] then chunks ++ [strip cur] else chunks
  | p :: rest, chunks, cur, curCount =>
    if curCount + p.length > 4 * maxTokens ∧ cur ≠ [] then
      chunkLoop maxTokens rest (chunks ++ [strip cur]) p p.length
    else
      chunkLoop maxTokens rest chunks
        (if cur ≠ [] then cur ++ '\n' :: '\n' :: p else p) (curCount + p.length)

/-- Embedding of TextProcessor.chunk_text: clean the text, split it into
paragraphs on blank-line boundaries, then greedily accumulate paragraphs. -/
def chunk_text (text : List Char) (maxTokens : Nat) : List (List Char) :=
  chunkLoop maxTokens (splitParas (clean_text text)) [] [] 0

/-- Embedding of TextProcessor.summarize_chunks: the chunks argument is only
used for the logged warning on a length mismatch; the result joins the model
outputs with a blank line. -/
def summarize_chunks (_chunks model_output : List (List Char)) : List Char :=
  List.intercalate (toL "\n\n") model_output

section TextProcessorLemmas

/-- Every character emitted by the whitespace-collapsing pass is either the
single space standing for a run or a non-whitespace character of the input. -/
theorem collapseWSAux_mem {c : Char} :
    ∀ (b : Bool) (l : List Char), c ∈ collapseWSAux b l → c = ' ' ∨ isSpace c = false := by
  intro b l
  induction l generalizing b with
  | nil => intro h; simp [collapseWSAux] at h
  | cons d rest ih =>
    intro h
    by_cases hd : isSpace d
    · cases b with
      | true => simp [collapseWSAux, hd] at h; exact ih true h
      | false =>
        simp [collapseWSAux, hd] at h
        rcases h with h | h
        · exact Or.inl h
        · exact ih true h
    · simp [collapseWSAux, hd] at h
      rcases h with h | h
      · subst h; exact Or.inr (by simpa using hd)
      · exact ih false h

/-- The output of collapseWS contains no newline. -/
theorem collapseWS_no_nl (l : List Char) : '\n' ∉ collapseWS l := by
  intro h
  rcases collapseWSAux_mem false l h with h1 | h1
  · simp at h1
  · simp [isSpace] at h1

/-- subBlankAux is the identity when neither the input nor the buffer
contains a newline. -/
theorem subBlankAux_no_nl :
    ∀ (l buf : List Char), '\n' ∉ l → '\n' ∉ buf →
      subBlankAux l buf = buf.reverse ++ l := by
  intro l
  induction l with
  | nil =>
    intro buf _ hbuf
    have hcount : buf.reverse.count '\n' = 0 := by
      simp [List.count_eq_zero]
      intro h; exact hbuf (by simpa using h)
    simp [subBlankAux, collapseRun, hcount]
  | cons c rest ih =>
    intro buf hl hbuf
    have hc : c ≠ '\n' := by intro h; exact hl (by simp [h])
    have hrest : '\n' ∉ rest := by intro h; exact hl (by simp [h])
    by_cases hsp : isSpace c
    · rw [subBlankAux]
      simp only [hsp, if_true]
      rw [ih (c :: buf) hrest ?_]
      · simp
      · intro h
        rcases List.mem_cons.mp h with h | h
        · exact hc h.symm
        · exact hbuf h
    · rw [subBlankAux]
      simp only [hsp]
      have hcount : buf.reverse.count '\n' = 0 := by
        simp [List.count_eq_zero]
        intro h; exact hbuf (by simpa using h)
      rw [ih [] hrest (by simp)]
      simp [collapseRun, hcount]

/-- subBlank is the identity on newline-free input. -/
theorem subBlank_no_nl {l : List Char} (h : '\n' ∉ l) : subBlank l = l := by
  rw [subBlank, subBlankAux_no_nl l [] h (by simp)]
  simp

/-- dropWhile keeps only elements of the original list. -/
theorem mem_of_mem_dropWhile {α : Type} {p : α → Bool} {l : List α} {a : α}
    (h : a ∈ l.dropWhile p) : a ∈ l :=
  (List.dropWhile_sublist p (l := l)).subset h

/-- strip keeps only characters of the original list. -/
theorem strip_subset {l : List Char} {c : Char} (h : c ∈ strip l) : c ∈ l := by
  rw [strip] at h
  rw [List.mem_reverse] at h
  have h2 := mem_of_mem_dropWhile h
  rw [List.mem_reverse] at h2
  exact mem_of_mem_dropWhile h2

/-- The cleaned text contains no newline: collapseWS already replaced every
whitespace character (newlines included) by a single space, so the blank-line
substitution and the strip act on newline-free text. -/
theorem clean_text_no_nl (text : List Char) : '\n' ∉ clean_text text := by
  intro h
  have h1 := strip_subset h
  rw [subBlank_no_nl (collapseWS_no_nl text)] at h1
  exact collapseWS_no_nl text h1

/-- On newline-free input the paragraph splitter returns a single field. -/
theorem splitParasAux_no_nl :
    ∀ (l acc : List Char), '\n' ∉ l → splitParasAux l acc 0 = [acc.reverse ++ l] := by
  intro l
  induction l with
  | nil => intro acc _; simp [splitParasAux]
  | cons c rest ih =>
    intro acc hl
    have hc : c ≠ '\n' := by intro h; exact hl (by simp [h])
    have hrest : '\n' ∉ rest := by intro h; exact hl (by simp [h])
    rw [splitParasAux]
    simp only [hc, if_false]
    rw [if_neg (by omega)]
    simp only [List.replicate, List.nil_append]
    rw [ih (c :: acc) hrest]
    simp

/-- splitParas on newline-free text yields that text as the sole paragraph. -/
theorem splitParas_no_nl {l : List Char} (h : '\n' ∉ l) : splitParas l = [l] := by
  rw [splitParas, splitParasAux_no_nl l [] h]
  simp

/-- dropWhile is idempotent. -/
theorem dropWhile_dropWhile {α : Type} (p : α → Bool) (l : List α) :
    (l.dropWhile p).dropWhile p = l.dropWhile p := by
  induction l with
  | nil => simp
  | cons c rest ih =>
    by_cases h : p c
    · simp [List.dropWhile_cons, h, ih]
    · simp [List.dropWhile_cons, h]

/-- The head of a dropWhile result never satisfies the predicate. -/
theorem head?_dropWhile {α : Type} (p : α → Bool) (l : List α) :
    ∀ a, (l.dropWhile p).head? = some a → p a = false := by
  induction l with
  | nil => intro a h; simp at h
  | cons c rest ih =>
    intro a h
    by_cases hc : p c
    · rw [List.dropWhile_cons_of_pos hc] at h
      exact ih a h
    · rw [List.dropWhile_cons_of_neg hc] at h
      simp at h
      subst h
      exact Bool.eq_false_iff.mpr hc

/-- dropWhile preserves the last element whenever its result is non-empty. -/
theorem getLast?_dropWhile {α : Type} (p : α → Bool) (l : List α)
    (h : l.dropWhile p ≠ []) : (l.dropWhile p).getLast? = l.getLast? := by
  induction l with
  | nil => simp at h
  | cons c rest ih =>
    by_cases hc : p c
    · rw [List.dropWhile_cons_of_pos hc] at h ⊢
      rw [ih h]
      have hr : rest ≠ [] := by
        intro he; rw [he] at h; simp at h
      cases rest with
      | nil => simp at hr
      | cons d tl => simp [List.getLast?_cons_cons]
    · rw [List.dropWhile_cons_of_neg hc]

/-- A list whose head fails the predicate is unchanged by dropWhile. -/
theorem dropWhile_eq_self {α : Type} (p : α → Bool) (l : List α)
    (h : ∀ a, l.head? = some a → p a = false) : l.dropWhile p = l := by
  cases l with
  | nil => simp
  | cons c rest =>
    have := h c (by simp)
    simp [List.dropWhile_cons, this]

/-- strip is idempotent. -/
theorem strip_strip (l : List Char) : strip (strip l) = strip l := by
  show (((strip l).dropWhile isSpace).reverse.dropWhile isSpace).reverse = strip l
  have h1 : (strip l).dropWhile isSpace = strip l := by
    apply dropWhile_eq_self
    intro a ha
    rw [strip] at ha
    rw [List.head?_reverse] at ha
    have hne : (l.dropWhile isSpace).reverse.dropWhile isSpace ≠ [] := by
      intro he; rw [he] at ha; simp at ha
    rw [getLast?_dropWhile _ _ hne] at ha
    rw [List.getLast?_reverse] at ha
    exact head?_dropWhile isSpace l a ha
  rw [h1]
  have h2 : (strip l).reverse.dropWhile isSpace = (strip l).reverse := by
    rw [strip, List.reverse_reverse]
    exact dropWhile_dropWhile isSpace _
  rw [h2, List.reverse_reverse]

/-- strip does nothing after clean_text, whose final step is already a strip. -/
theorem strip_clean_text (text : List Char) : strip (clean_text text) = clean_text text := by
  rw [clean_text, strip_strip]

end TextProcessorLemmas

/-- A cleaned text is a single paragraph, so the chunk loop runs exactly once. -/
theorem chunk_text_eval (text : List Char) (maxTokens : Nat) :
    chunk_text text maxTokens =
      if clean_text text = [] then [] else [clean_text text] := by
  rw [chunk_text, splitParas_no_nl (clean_text_no_nl text)]
  by_cases h : clean_text text = []
  · simp [h, chunkLoop]
  · simp [chunkLoop, h, strip_clean_text]

/-- C2: for every input text and every max_tokens value, chunk_text returns at
most one chunk: the empty list when clean_text(text) is empty and otherwise
the singleton list holding clean_text(text), because clean_text replaces
every whitespace run (newlines included) with a single space before
chunk_text splits on blank-line boundaries. -/
theorem chunk_text_returns_at_most_one_chunk (text : List Char) (maxTokens : Nat) :
    chunk_text text maxTokens =
      if clean_text text = [] then [] else [clean_text text] :=
  chunk_text_eval text maxTokens

/-- C1: evaluation of chunk_text at two blank-line-separated 8-character
paragraphs with max_tokens = 2: the combined token estimate is 16 / 4 = 4 > 2,
yet the code returns a single chunk, because clean_text collapsed the blank
line into a single space before the paragraph split. -/
theorem chunk_text_merges_blank_line_paragraphs :
    chunk_text (toL "aaaaaaaa\n\nbbbbbbbb") 2 = [toL "aaaaaaaa bbbbbbbb"] := by
  decide

/-- C10: joining the chunks returned by chunk_text in order with the
blank-line paragraph separator reconstructs clean_text(text) exactly. -/
theorem chunk_join_reconstructs_clean_text (text : List Char) (maxTokens : Nat) :
    List.intercalate (toL "\n\n") (chunk_text text maxTokens) = clean_text text := by
  rw [chunk_text_eval]
  by_cases h : clean_text text = []
  · simp [h, List.intercalate]
  · simp [h, List.intercalate, List.intersperse]

/-- Outcome of one invocation of the underlying generation capability
(model.generate_content): either a response text or a raised error carrying
its message string. -/
inductive GenResult where
  | ok (text : List Char)
  | err (msg : List Char)
deriving DecidableEq

/-- Substring test embedding the Python expression pat in s. -/
def containsSub (pat : List Char) : List Char → Bool
  | [] => pat.isPrefixOf []
  | c :: rest => pat.isPrefixOf (c :: rest) || containsSub pat rest

/-- The rate-limit detection of GeminiHandler._call_with_retry:
the string "429" occurs in str(e). -/
def has429 (msg : List Char) : Bool := containsSub (toL "429") msg

/-- Loop body of GeminiHandler._call_with_retry.  The capability gen is
indexed by the attempt number (the value of the retries counter at that
attempt).  remaining is max_retries - retries, so the source guard
retries < max_retries is remaining > 0 and the loop condition
retries <= max_retries holds invariantly; when remaining = 0 an error is
re-raised whether or not it carries the rate-limit signal.  The first
component records, in order, the deterministic part base_delay ^ retries of
each sleep performed (the uniform(0, 1) jitter added on top is abstracted
away); the second is the returned text or the propagated error message. -/
def callWithRetryGo (gen : Nat → GenResult) (baseDelay : Nat) :
    Nat → Nat → List Nat × Except (List Char) (List Char)
  | retries, 0 =>
    (match gen retries with
     | .ok s => ([], .ok s)
     | .err m => ([], .error m))
  | retries, remaining + 1 =>
    match gen retries with
    | .ok s => ([], .ok s)
    | .err m =>
      if has429 m then
        let r := callWithRetryGo gen baseDelay (retries + 1) remaining
        (baseDelay ^ retries :: r.1, r.2)
      else ([], .error m)

/-- Embedding of GeminiHandler._call_with_retry(prompt, max_retries, base_delay):
start with retries = 0 and a budget of max_retries rate-limited retries. -/
def callWithRetry (gen : Nat → GenResult) (maxRetries baseDelay : Nat) :
    List Nat × Except (List Char) (List Char) :=
  callWithRetryGo gen baseDelay 0 maxRetries

/-- A mock capability that fails with the message msg exactly n times and
then succeeds with resp, as in the spec scenario for the retry wrapper. -/
def mock429 (n : Nat) (msg resp : List Char) (k : Nat) : GenResult :=
  if k < n then .err msg else .ok resp

section RetryLemmas

/-- When enough retry budget remains to reach attempt n, the loop sleeps once
per failing attempt and returns the success response. -/
theorem callWithRetryGo_mock_success (n : Nat) (msg resp : List Char)
    (h429 : has429 msg = true) (baseDelay : Nat) :
    ∀ (remaining retries : Nat), n - retries ≤ remaining →
      callWithRetryGo (mock429 n msg resp) baseDelay retries remaining =
        ((List.range' retries (n - retries)).map (fun k => baseDelay ^ k),
          Except.ok resp) := by
  intro remaining
  induction remaining with
  | zero =>
    intro retries h
    have hge : n ≤ retries := by omega
    have : mock429 n msg resp retries = .ok resp := by
      simp [mock429, Nat.not_lt.mpr hge]
    simp [callWithRetryGo, this, Nat.sub_eq_zero_of_le hge]
  | succ r ih =>
    intro retries h
    by_cases hlt : retries < n
    · have hmock : mock429 n msg resp retries = .err msg := by simp [mock429, hlt]
      rw [callWithRetryGo]
      rw [hmock]
      simp only [h429, if_true]
      rw [ih (retries + 1) (by omega)]
      have hn : n - retries = (n - (retries + 1)) + 1 := by omega
      rw [hn, List.range'_succ]
      simp
    · have hmock : mock429 n msg resp retries = .ok resp := by
        simp [mock429, hlt]
      rw [callWithRetryGo]
      rw [hmock]
      have : n - retries = 0 := by omega
      simp [this]

/-- When the budget runs out before attempt n, the loop sleeps once per
budgeted retry and then propagates the rate-limited error. -/
theorem callWithRetryGo_mock_exhaust (n : Nat) (msg resp : List Char)
    (h429 : has429 msg = true) (baseDelay : Nat) :
    ∀ (remaining retries : Nat), retries + remaining < n →
      callWithRetryGo (mock429 n msg resp) baseDelay retries remaining =
        ((List.range' retries remaining).map (fun k => baseDelay ^ k),
          Except.error msg) := by
  intro remaining
  induction remaining with
  | zero =>
    intro retries h
    have hmock : mock429 n msg resp retries = .err msg := by
      simp [mock429]; omega
    simp [callWithRetryGo, hmock]
  | succ r ih =>
    intro retries h
    have hmock : mock429 n msg resp retries = .err msg := by
      simp [mock429]; omega
    rw [callWithRetryGo, hmock]
    simp only [h429, if_true]
    rw [ih (retries + 1) (by omega)]
    rw [List.range'_succ]
    simp

end RetryLemmas

/-- C3: for a capability that fails with a rate-limit message exactly n times
and then succeeds, _call_with_retry returns the success response iff
n <= max_retries and otherwise propagates the rate-limited error after
max_retries sleeps; it sleeps exactly n times on success, the k-th sleep
having deterministic part base_delay ^ k, these minimum delays are strictly
increasing when base_delay >= 2, and an error without the rate-limit signal
is propagated immediately with no sleep. -/
theorem call_with_retry_spec (n maxRetries baseDelay : Nat) (msg resp : List Char)
    (h429 : has429 msg = true) (hbase : 2 ≤ baseDelay) :
    (n ≤ maxRetries →
      callWithRetry (mock429 n msg resp) maxRetries baseDelay =
        ((List.range n).map (fun k => baseDelay ^ k), Except.ok resp)) ∧
    (maxRetries < n →
      callWithRetry (mock429 n msg resp) maxRetries baseDelay =
        ((List.range maxRetries).map (fun k => baseDelay ^ k), Except.error msg)) ∧
    List.Chain' (· < ·) (callWithRetry (mock429 n msg resp) maxRetries baseDelay).1 ∧
    (∀ m2 : List Char, has429 m2 = false →
      callWithRetry (fun _ => GenResult.err m2) maxRetries baseDelay =
        ([], Except.error m2)) := by
  have hsucc : n ≤ maxRetries →
      callWithRetry (mock429 n msg resp) maxRetries baseDelay =
        ((List.range n).map (fun k => baseDelay ^ k), Except.ok resp) := by
    intro h
    rw [callWithRetry, callWithRetryGo_mock_success n msg resp h429 baseDelay maxRetries 0 (by omega)]
    rw [← List.range_eq_range']
    simp
  have hex : maxRetries < n →
      callWithRetry (mock429 n msg resp) maxRetries baseDelay =
        ((List.range maxRetries).map (fun k => baseDelay ^ k), Except.error msg) := by
    intro h
    rw [callWithRetry, callWithRetryGo_mock_exhaust n msg resp h429 baseDelay maxRetries 0 (by omega)]
    rw [← List.range_eq_range']
  have hchain : ∀ m : Nat, List.Chain' (· < ·) ((List.range m).map (fun k => baseDelay ^ k)) := by
    intro m
    apply List.Pairwise.chain'
    apply List.Pairwise.map
    · intro a b hab
      exact Nat.pow_lt_pow_right (by omega) hab
    · exact List.pairwise_lt_range m
  refine ⟨hsucc, hex, ?_, ?_⟩
  · by_cases h : n ≤ maxRetries
    · rw [hsucc h]; exact hchain n
    · rw [hex (by omega)]; exact hchain maxRetries
  · intro m2 hm2
    cases maxRetries with
    | zero => simp [callWithRetry, callWithRetryGo]
    | succ r => simp [callWithRetry, callWithRetryGo, hm2]

/-- Witness for C3 at n = 2 failures, max_retries = 5, base_delay = 2. -/
theorem call_with_retry_spec_witness :
    callWithRetry (mock429 2 (toL "Error 429: quota exceeded") (toL "ok")) 5 2 =
      ((List.range 2).map (fun k => 2 ^ k), Except.ok (toL "ok")) :=
  (call_with_retry_spec 2 5 2 (toL "Error 429: quota exceeded") (toL "ok")
    (by decide) (by decide)).1 (by decide)

/-- templates/prompts.py CHUNK_SUMMARIZATION_TEMPLATE, verbatim (placeholders
written with escaped braces). -/
def CHUNK_SUMMARIZATION_TEMPLATE : List Char :=
  toL "\nYou are processing a section of an article titled \"\x7btitle\x7d\". \nSummarize this section while preserving all key information, facts, and insights.\nKeep the most important quotes and statistics intact.\nMaintain the tone and style of the original content.\n\nSECTION:\n\x7bchunk\x7d\n\nSUMMARIZED SECTION:\n"

/-- templates/prompts.py LINKEDIN_POST_TEMPLATE, verbatim. -/
def LINKEDIN_POST_TEMPLATE : List Char :=
  toL "\nCreate a LinkedIn post based on this article titled \"\x7btitle\x7d\".\nInclude:\n1. A compelling hook that grabs attention in the first line\n2. Structured/numbered key insights from the article (enough detail to be understandable and compelling)\n3. A thought-provoking question or call-to-action at the end\n4. 1-5 relevant hashtags\n\nFormat with appropriate line breaks and emojis where relevant.\nKeep under 3,000 characters and make it feel professional but conversational.\n\nARTICLE CONTENT:\n\x7bcontent\x7d\n\nLINKEDIN POST:\n"

/-- templates/prompts.py TWITTER_THREAD_TEMPLATE, verbatim. -/
def TWITTER_THREAD_TEMPLATE : List Char :=
  toL "\nCreate a Twitter thread (generally between 5-7 tweets) based on this article titled \"\x7btitle\x7d\".\nFirst tweet should have a powerful hook that makes people want to read the thread.\nEach subsequent tweet should cover a key point with engaging language.\nFinal tweet should include a thought-provoking question or call-to-action.\nInclude 2-5 relevant hashtags in the final tweet.\nEach tweet should be concise but still have enough information to be compelling, maintain the balance.\nNumber each tweet (1/7, 2/7, etc.) to make it clear it\x27s a thread.\n\nARTICLE CONTENT:\n\x7bcontent\x7d\n\nTWITTER THREAD:\n"

/-- templates/prompts.py EMAIL_NEWSLETTER_TEMPLATE, verbatim. -/
def EMAIL_NEWSLETTER_TEMPLATE : List Char :=
  toL "\nCreate an email newsletter based on this article titled \"\x7btitle\x7d\".\nInclude:\n1. An engaging subject line (marked with \"SUBJECT:\")\n2. A personal-feeling introduction that hooks the reader\n3. 3-5 key insights (can be more depending on the content) from the article with brief explanations\n4. Bullet points for easy scanning\n5. A practical takeaway or application for the reader\n6. A clear call-to-action\n\nFormat it professionally with appropriate sections and make it conversational.\nUse subheadings where appropriate.\n\nARTICLE CONTENT:\n\x7bcontent\x7d\n\nEMAIL NEWSLETTER:\n"

/-- templates/prompts.py THOUGHT_LEADERSHIP_TEMPLATE, verbatim. -/
def THOUGHT_LEADERSHIP_TEMPLATE : List Char :=
  toL "\nCreate 3 thought leadership comments that could be used on social media or forums\nbased on this article titled \"\x7btitle\x7d\".\n\nEach comment should:\n1. Show expertise and unique insight\n2. Reference the article content but add new perspective or extend the ideas\n3. Be 2-3 paragraphs long\n4. End with an open-ended question to encourage discussion\n5. Be written in a professional but conversational tone\n\nLabel each comment as \"COMMENT 1:\", \"COMMENT 2:\", and \"COMMENT 3:\"\n\nARTICLE CONTENT:\n\x7bcontent\x7d\n\nTHOUGHT LEADERSHIP COMMENTS:\n"

/-- Embedding of templates/prompts.py get_template: TEMPLATES.get(template_type, "").
Total: an unknown key yields the empty string, never an exception. -/
def get_template (t : List Char) : List Char :=
  if t = toL "chunk_summarization" then CHUNK_SUMMARIZATION_TEMPLATE
  else if t = toL "linkedin" then LINKEDIN_POST_TEMPLATE
  else if t = toL "twitter" then TWITTER_THREAD_TEMPLATE
  else if t = toL "email" then EMAIL_NEWSLETTER_TEMPLATE
  else if t = toL "thought_leadership" then THOUGHT_LEADERSHIP_TEMPLATE
  else []

/-- Embedding of Python dict.get(key, default) on an association list. -/
def lookupD (m : List (List Char × List Char)) (k d : List Char) : List Char :=
  match m with
  | [] => d
  | p :: rest => if p.1 = k then p.2 else lookupD rest k d

/-- Lookup of a replacement-field name among the keyword arguments of a
format call; none embeds the KeyError Python raises for an unknown name. -/
def lookupOpt (m : List (List Char × List Char)) (k : List Char) : Option (List Char) :=
  match m with
  | [] => none
  | p :: rest => if p.1 = k then some p.2 else lookupOpt rest k

/-- Scanner state of the str.format parser: literal text, an opening or
closing brace whose role (escape, field start, error) the next character
decides, or the inside of a replacement-field name (accumulated in reverse). -/
inductive FmtState where
  | text
  | openBrace
  | closeBrace
  | name (acc : List Char)

/-- One-character-at-a-time worker embedding str.format(...).  A none result
embeds a raised exception.  As in Python: a doubled brace is an escape for a
literal brace; a single closing brace in literal text, an unclosed opening
brace, an empty field, and an opening brace inside a field name raise
ValueError; an unknown field name raises KeyError; a replacement value is
spliced without being rescanned.  A conversion or format spec inside a field
(a bang or colon suffix) is folded into the name and hence modelled as a
failed lookup; no template of this repository and no input of the theorems
below contains one. -/
def pyFormatAux (subst : List (List Char × List Char)) : List Char → FmtState → Option (List Char)
  | [], .text => some []
  | [], .openBrace => none
  | [], .closeBrace => none
  | [], .name _ => none
  | c :: rest, .text =>
    if c = '\x7b' then pyFormatAux subst rest .openBrace
    else if c = '\x7d' then pyFormatAux subst rest .closeBrace
    else (pyFormatAux subst rest .text).map (fun t => c :: t)
  | c :: rest, .openBrace =>
    if c = '\x7b' then (pyFormatAux subst rest .text).map (fun t => '\x7b' :: t)
    else if c = '\x7d' then none
    else pyFormatAux subst rest (.name [c])
  | c :: rest, .closeBrace =>
    if c = '\x7d' then (pyFormatAux subst rest .text).map (fun t => '\x7d' :: t)
    else none
  | c :: rest, .name acc =>
    if c = '\x7d' then
      match lookupOpt subst acc.reverse with
      | some v => (pyFormatAux subst rest .text).map (fun t => v ++ t)
      | none => none
    else if c = '\x7b' then none
    else pyFormatAux subst rest (.name (c :: acc))

/-- Embedding of template.format(...) with the given keyword substitution:
some rendered text, or none when format raises. -/
def pyFormat (subst : List (List Char × List Char)) (l : List Char) : Option (List Char) :=
  pyFormatAux subst l FmtState.text

/-- Split at the first occurrence of pat, embedding the use of
template.split("ARTICLE CONTENT:") in create_repurposed_content (every
template holds at most one occurrence of the marker, so parts[0] and
parts[1] of the Python split are exactly the two components). -/
def splitFirst (pat : List Char) : List Char → Option (List Char × List Char)
  | [] => if pat.isPrefixOf [] then some ([], []) else none
  | c :: rest =>
    if pat.isPrefixOf (c :: rest) then some ([], (c :: rest).drop pat.length)
    else
      match splitFirst pat rest with
      | some (a, b) => some (c :: a, b)
      | none => none

/-- The literal content-block marker used by the templates and by
create_repurposed_content. -/
def ARTICLE_MARKER : List Char := toL "ARTICLE CONTENT:"

/-- The custom-instruction banner spliced before the content block. -/
def IMPORTANT_BANNER : List Char :=
  toL "!IMPORTANT INSTRUCTIONS (if above instructions are conflicting, prioritize these): "

/-- The per-type error marker returned when generation exhausts retries. -/
def ERROR_MARKER (ct : List Char) : List Char :=
  toL "Error generating " ++ ct ++ toL " content. Please try again later."

/-- The explicit-error marker of the except-branch of
create_repurposed_content for a type outside fallback_prompts. -/
def INVALID_MARKER (ct : List Char) : List Char :=
  toL "Invalid content type: " ++ ct

/-- The keys of the fallback_prompts dictionary in create_repurposed_content. -/
def fallbackKeys : List (List Char) :=
  [toL "linkedin", toL "twitter", toL "email", toL "thought_leadership"]

/-- The linkedin entry of fallback_prompts, an f-string evaluated eagerly
(title and condensed content spliced directly, the banner plus instruction
present only when the instruction is non-empty), verbatim including the
12-space indentation of the source. -/
def linkedinFallback (condensed title ci : List Char) : List Char :=
  toL "\n            Create a LinkedIn post based on this article titled \"" ++ title ++
  toL "\".\n            Include a compelling hook, 3-4 key insights, and a thought-provoking question or call-to-action.\n            Format with appropriate line breaks and emojis where relevant.\n            Keep under 3,000 characters and make it feel professional but conversational.\n            \n            " ++
  (if ci ≠ [] then IMPORTANT_BANNER ++ ci else []) ++
  toL "\n            \n            ARTICLE CONTENT:\n            " ++ condensed ++
  toL "\n            \n            LINKEDIN POST:\n            "

/-- The twitter entry of fallback_prompts, verbatim. -/
def twitterFallback (condensed title ci : List Char) : List Char :=
  toL "\n            Create a Twitter thread (5-7 tweets) based on this article titled \"" ++ title ++
  toL "\".\n            First tweet should have a powerful hook.\n            Each subsequent tweet should cover a key point with engaging language.\n            Final tweet should include a thought-provoking question or call-to-action.\n            Include relevant hashtags in the final tweet.\n            Each tweet should be under 280 characters.\n            \n            " ++
  (if ci ≠ [] then IMPORTANT_BANNER ++ ci else []) ++
  toL "\n            \n            ARTICLE CONTENT:\n            " ++ condensed ++
  toL "\n            \n            TWITTER THREAD:\n            "

/-- The email entry of fallback_prompts, verbatim. -/
def emailFallback (condensed title ci : List Char) : List Char :=
  toL "\n            Create an email newsletter based on this article titled \"" ++ title ++
  toL "\".\n            Include:\n            1. An engaging subject line\n            2. A personal-feeling introduction\n            3. 3-5 key insights from the article with brief explanations\n            4. A practical takeaway or application for the reader\n            5. A call-to-action\n            \n            Format it professionally with appropriate sections and make it conversational.\n            \n            " ++
  (if ci ≠ [] then IMPORTANT_BANNER ++ ci else []) ++
  toL "\n            \n            ARTICLE CONTENT:\n            " ++ condensed ++
  toL "\n            \n            EMAIL NEWSLETTER:\n            "

/-- The thought_leadership entry of fallback_prompts, verbatim. -/
def thoughtLeadershipFallback (condensed title ci : List Char) : List Char :=
  toL "\n            Create 3 thought leadership comments that could be used on social media or forums\n            based on this article titled \"" ++ title ++
  toL "\".\n            \n            Each comment should:\n            1. Show expertise and unique insight\n            2. Reference the article content but add new perspective\n            3. Be 2-3 paragraphs long\n            4. End with an open-ended question to encourage discussion\n            \n            " ++
  (if ci ≠ [] then IMPORTANT_BANNER ++ ci else []) ++
  toL "\n            \n            ARTICLE CONTENT:\n            " ++ condensed ++
  toL "\n            \n            THOUGHT LEADERSHIP COMMENTS:\n            "

/-- Lookup in the fallback_prompts dictionary (unused key yields [] and is
guarded by membership in fallbackKeys at the call site). -/
def fallbackPrompt (ct condensed title ci : List Char) : List Char :=
  if ct = toL "linkedin" then linkedinFallback condensed title ci
  else if ct = toL "twitter" then twitterFallback condensed title ci
  else if ct = toL "email" then emailFallback condensed title ci
  else if ct = toL "thought_leadership" then thoughtLeadershipFallback condensed title ci
  else []

/-- Outcome of the prompt-construction phase of create_repurposed_content:
either a prompt to send to the capability, or the early return of the
except branch for a type outside fallback_prompts. -/
inductive PromptOutcome where
  | prompt (p : List Char)
  | invalid (s : List Char)
deriving DecidableEq

/-- Boolean discriminator for PromptOutcome. -/
def isPromptB : PromptOutcome → Bool
  | .prompt _ => true
  | .invalid _ => false

/-- The prompt construction of GeminiHandler.create_repurposed_content: the
body of its try block together with its except branch.  Inside the try
block only format can raise (get_template is a dict lookup with default ""
and str.split is total): a none from pyFormat — possible only through
malformed braces introduced by the spliced custom instruction — reaches the
except branch, which selects the hardcoded fallback prompt for a known type
and returns the "Invalid content type" marker otherwise.  With an empty or
brace-free instruction format never raises, so an unknown content_type
flows through with the empty prompt instead of that marker (see the C4
theorem below). -/
def build_prompt (content_type condensed_content original_title custom_instruction : List Char) : PromptOutcome :=
  let template := get_template content_type
  let template :=
    if custom_instruction ≠ [] then
      match splitFirst ARTICLE_MARKER template with
      | some (a, b) =>
        a ++ toL "\n" ++ IMPORTANT_BANNER ++ custom_instruction ++ toL "\n\n" ++ ARTICLE_MARKER ++ b
      | none => template ++ toL "\n\n" ++ custom_instruction
    else template
  match pyFormat [(toL "title", original_title), (toL "content", condensed_content)] template with
  | some prompt =>
    if prompt = [] ∧ content_type ∈ fallbackKeys then
      .prompt (fallbackPrompt content_type condensed_content original_title custom_instruction)
    else .prompt prompt
  | none =>
    if content_type ∈ fallbackKeys then
      .prompt (fallbackPrompt content_type condensed_content original_title custom_instruction)
    else .invalid (INVALID_MARKER content_type)

/-- Embedding of GeminiHandler.create_repurposed_content.  The capability cap
stands for _call_with_retry: ok is a returned response text, error a raised
exception (whose message is irrelevant here); the final try/except turns a
raised error into the per-type error marker. -/
def create_repurposed_content (cap : List Char → Except (List Char) (List Char))
    (content_type condensed_content original_title custom_instruction : List Char) : List Char :=
  match build_prompt content_type condensed_content original_title custom_instruction with
  | .invalid s => s
  | .prompt p =>
    match cap p with
    | .ok s => s
    | .error _ => ERROR_MARKER content_type

/-- The hardcoded fallback prompt of GeminiHandler.chunk_summarize, an
f-string evaluated in its except branch, verbatim including the 12-space
indentation of the source. -/
def chunkFallbackPrompt (chunk original_title : List Char) : List Char :=
  toL "\n            Summarize the following chunk of content from an article titled \"" ++ original_title ++
  toL "\".\n            Preserve key information, quotes, statistics, and unique insights.\n            Maintain the original tone and style.\n            \n            CHUNK:\n            " ++ chunk ++
  toL "\n            \n            SUMMARY:\n            "

/-- Embedding of GeminiHandler.chunk_summarize.  Formatting the fixed,
well-formed chunk-summarization template never raises (the substituted
values are not rescanned), so the except branch selecting the hardcoded
fallback prompt is present but unreachable; a failed capability call
returns the original chunk unchanged. -/
def chunk_summarize (cap : List Char → Except (List Char) (List Char))
    (chunk original_title : List Char) : List Char :=
  let prompt :=
    match pyFormat [(toL "title", original_title), (toL "chunk", chunk)]
        (get_template (toL "chunk_summarization")) with
    | some p => p
    | none => chunkFallbackPrompt chunk original_title
  match cap prompt with
  | .ok s => s
  | .error _ => chunk

section FormatLemmas

/-- Scanning a brace-free segment copies it unchanged ahead of the rest. -/
theorem pyFormatAux_free_append (subst : List (List Char × List Char)) :
    ∀ (a b : List Char), '\x7b' ∉ a → '\x7d' ∉ a →
      pyFormatAux subst (a ++ b) FmtState.text =
        (pyFormatAux subst b FmtState.text).map (fun t => a ++ t) := by
  intro a
  induction a with
  | nil =>
    intro b _ _
    simp only [List.nil_append]
    cases pyFormatAux subst b FmtState.text with
    | none => simp
    | some t => simp
  | cons c rest ih =>
    intro b ha1 ha2
    have hc1 : c ≠ '\x7b' := fun h => ha1 (by simp [h])
    have hc2 : c ≠ '\x7d' := fun h => ha2 (by simp [h])
    have hrest1 : '\x7b' ∉ rest := fun h => ha1 (by simp [h])
    have hrest2 : '\x7d' ∉ rest := fun h => ha2 (by simp [h])
    simp only [List.cons_append]
    rw [pyFormatAux]
    simp only [hc1, hc2, if_false]
    rw [ih b hrest1 hrest2]
    cases pyFormatAux subst b FmtState.text with
    | none => simp
    | some t => simp

/-- A brace-free input formats to itself. -/
theorem pyFormatAux_free_some (subst : List (List Char × List Char))
    (a : List Char) (ha1 : '\x7b' ∉ a) (ha2 : '\x7d' ∉ a) :
    pyFormatAux subst a FmtState.text = some a := by
  have h := pyFormatAux_free_append subst a [] ha1 ha2
  simpa [pyFormatAux] using h

/-- Scanning a well-formed field name up to its closing brace looks up the
accumulated name and splices its value ahead of the formatted remainder. -/
theorem pyFormatAux_key (subst : List (List Char × List Char)) :
    ∀ (name acc b : List Char), '\x7d' ∉ name → '\x7b' ∉ name →
      pyFormatAux subst (name ++ '\x7d' :: b) (FmtState.name acc) =
        match lookupOpt subst (acc.reverse ++ name) with
        | some v => (pyFormatAux subst b FmtState.text).map (fun t => v ++ t)
        | none => none := by
  intro name
  induction name with
  | nil =>
    intro acc b _ _
    rw [List.nil_append, pyFormatAux]
    simp
  | cons d rest ih =>
    intro acc b hn1 hn2
    have hd1 : d ≠ '\x7d' := fun h => hn1 (by simp [h])
    have hd2 : d ≠ '\x7b' := fun h => hn2 (by simp [h])
    have hrest1 : '\x7d' ∉ rest := fun h => hn1 (by simp [h])
    have hrest2 : '\x7b' ∉ rest := fun h => hn2 (by simp [h])
    simp only [List.cons_append]
    rw [pyFormatAux]
    simp only [hd1, hd2, if_false]
    rw [ih (d :: acc) b hrest1 hrest2]
    simp

/-- An opening brace in literal text moves the scanner to the openBrace state. -/
theorem pyFormatAux_text_open (subst : List (List Char × List Char)) (rest : List Char) :
    pyFormatAux subst ('\x7b' :: rest) FmtState.text =
      pyFormatAux subst rest FmtState.openBrace := by
  rw [pyFormatAux]
  simp

/-- A non-brace character after an opening brace starts a field name. -/
theorem pyFormatAux_open_name (subst : List (List Char × List Char)) (c : Char)
    (rest : List Char) (hb : c ≠ '\x7b') (hd : c ≠ '\x7d') :
    pyFormatAux subst (c :: rest) FmtState.openBrace =
      pyFormatAux subst rest (FmtState.name [c]) := by
  rw [pyFormatAux]
  simp [hb, hd]

/-- A complete well-formed placeholder with a known name is replaced by its
substitution value. -/
theorem pyFormatAux_placeholder (subst : List (List Char × List Char))
    (name b v : List Char) (hv : lookupOpt subst name = some v)
    (h1 : '\x7d' ∉ name) (h2 : '\x7b' ∉ name) (hne : name ≠ []) :
    pyFormatAux subst ('\x7b' :: (name ++ '\x7d' :: b)) FmtState.text =
      (pyFormatAux subst b FmtState.text).map (fun t => v ++ t) := by
  cases name with
  | nil => exact absurd rfl hne
  | cons n0 ns =>
    have h0b : n0 ≠ '\x7b' := fun h => h2 (by simp [h])
    have h0d : n0 ≠ '\x7d' := fun h => h1 (by simp [h])
    have hns1 : '\x7d' ∉ ns := fun h => h1 (by simp [h])
    have hns2 : '\x7b' ∉ ns := fun h => h2 (by simp [h])
    rw [pyFormatAux_text_open, List.cons_append,
      pyFormatAux_open_name subst n0 _ h0b h0d,
      pyFormatAux_key subst ns [n0] b hns1 hns2]
    simp [hv]

end FormatLemmas

/-- The text of LINKEDIN_POST_TEMPLATE before its title placeholder. -/
def LINKEDIN_T1 : List Char :=
  toL "\nCreate a LinkedIn post based on this article titled \""

/-- The text of LINKEDIN_POST_TEMPLATE between the title placeholder and the
content marker. -/
def LINKEDIN_T2 : List Char :=
  toL "\".\nInclude:\n1. A compelling hook that grabs attention in the first line\n2. Structured/numbered key insights from the article (enough detail to be understandable and compelling)\n3. A thought-provoking question or call-to-action at the end\n4. 1-5 relevant hashtags\n\nFormat with appropriate line breaks and emojis where relevant.\nKeep under 3,000 characters and make it feel professional but conversational.\n\n"

/-- The text of LINKEDIN_POST_TEMPLATE after its content placeholder. -/
def LINKEDIN_T3 : List Char := toL "\n\nLINKEDIN POST:\n"

/-- C4: an unknown content type is not treated as an explicit error:
get_template falls back to the empty string instead of raising, so
create_repurposed_content formats an empty prompt, invokes the generation
capability on it, and returns whatever that call produces — the
"Invalid content type" marker of the dead except-branch is never returned. -/
theorem create_repurposed_unknown_type_calls_capability :
    create_repurposed_content (fun p => Except.ok (toL "MODEL RESPONSE TO:" ++ p))
      (toL "blog") (toL "some condensed content") (toL "Some Title") [] =
      toL "MODEL RESPONSE TO:" ∧
    create_repurposed_content (fun p => Except.ok (toL "MODEL RESPONSE TO:" ++ p))
      (toL "blog") (toL "some condensed content") (toL "Some Title") [] ≠
      INVALID_MARKER (toL "blog") := by
  constructor
  · decide
  · decide

set_option maxRecDepth 100000 in
/-- C9: for content type linkedin and a non-empty custom instruction free of
brace characters (so that str.format neither raises on it nor rescans it;
the spec example "use more emojis" qualifies), the prompt built by
create_repurposed_content contains the instruction, framed by the
higher-priority banner, immediately before the blank line and the literal
ARTICLE CONTENT: block of the rendered template. -/
theorem linkedin_prompt_instruction_before_content
    (condensed title ci : List Char) (hci : ci ≠ [])
    (hb1 : '\x7b' ∉ ci) (hb2 : '\x7d' ∉ ci) :
    ∃ a b, build_prompt (toL "linkedin") condensed title ci =
      PromptOutcome.prompt
        (a ++ IMPORTANT_BANNER ++ ci ++ toL "\n\n" ++ ARTICLE_MARKER ++ b) := by
  have hget : get_template (toL "linkedin") = LINKEDIN_POST_TEMPLATE := by decide
  have hsplit : splitFirst ARTICLE_MARKER LINKEDIN_POST_TEMPLATE =
      some (LINKEDIN_T1 ++ ('\x7b' :: (toL "title" ++ ('\x7d' :: LINKEDIN_T2))),
            toL "\n" ++ ('\x7b' :: (toL "content" ++ ('\x7d' :: LINKEDIN_T3)))) := by decide
  have hlookT : lookupOpt [(toL "title", title), (toL "content", condensed)] (toL "title") =
      some title := by
    rw [lookupOpt, if_pos rfl]
  have hlookC : lookupOpt [(toL "title", title), (toL "content", condensed)] (toL "content") =
      some condensed := by
    have hne : toL "title" ≠ toL "content" := by decide
    rw [lookupOpt, if_neg (fun h => hne h), lookupOpt, if_pos rfl]
  have h1ne : LINKEDIN_T1 ≠ [] := by decide
  refine ⟨LINKEDIN_T1 ++ title ++ LINKEDIN_T2 ++ toL "\n",
          toL "\n" ++ condensed ++ LINKEDIN_T3, ?_⟩
  rw [build_prompt]
  simp only [hget, hsplit, if_pos hci]
  rw [pyFormat]
  simp only [List.append_assoc, List.cons_append]
  rw [pyFormatAux_free_append _ LINKEDIN_T1 _ (by decide) (by decide)]
  rw [pyFormatAux_placeholder _ (toL "title") _ title hlookT (by decide) (by decide) (by decide)]
  rw [pyFormatAux_free_append _ LINKEDIN_T2 _ (by decide) (by decide)]
  rw [pyFormatAux_free_append _ (toL "\n") _ (by decide) (by decide)]
  rw [pyFormatAux_free_append _ IMPORTANT_BANNER _ (by decide) (by decide)]
  rw [pyFormatAux_free_append _ ci _ hb1 hb2]
  rw [pyFormatAux_free_append _ (toL "\n\n") _ (by decide) (by decide)]
  rw [pyFormatAux_free_append _ ARTICLE_MARKER _ (by decide) (by decide)]
  rw [pyFormatAux_free_append _ (toL "\n") _ (by decide) (by decide)]
  rw [pyFormatAux_placeholder _ (toL "content") _ condensed hlookC
      (by decide) (by decide) (by decide)]
  rw [pyFormatAux_free_some _ LINKEDIN_T3 (by decide) (by decide)]
  simp [h1ne]

/-- Witness for C9 at the spec scenario instruction "use more emojis". -/
theorem linkedin_prompt_instruction_before_content_witness :
    ∃ a b, build_prompt (toL "linkedin") (toL "The condensed article.") (toL "A Title")
        (toL "use more emojis") =
      PromptOutcome.prompt
        (a ++ IMPORTANT_BANNER ++ toL "use more emojis" ++ toL "\n\n" ++ ARTICLE_MARKER ++ b) :=
  linkedin_prompt_instruction_before_content (toL "The condensed article.") (toL "A Title")
    (toL "use more emojis") (by decide) (by decide) (by decide)

/-- C8: for a non-empty list of non-empty chunks, when every summarization
call fails (the capability raises on every prompt), each chunk contributes
its original text and the condensation joins them with a blank line in the
original order — in particular the condensed document is non-empty. -/
theorem condensation_nonempty_on_total_failure
    (chunks : List (List Char)) (title : List Char)
    (failMsg : List Char → List Char)
    (hne : chunks ≠ []) (hcne : ∀ c ∈ chunks, c ≠ []) :
    summarize_chunks chunks
        (chunks.map (fun c => chunk_summarize (fun p => Except.error (failMsg p)) c title)) =
      List.intercalate (toL "\n\n") chunks ∧
    summarize_chunks chunks
        (chunks.map (fun c => chunk_summarize (fun p => Except.error (failMsg p)) c title)) ≠
      [] := by
  have hmap : chunks.map (fun c => chunk_summarize (fun p => Except.error (failMsg p)) c title) =
      chunks := by
    have : ∀ c, chunk_summarize (fun p => Except.error (failMsg p)) c title = c := fun c => rfl
    simp [this]
  constructor
  · rw [summarize_chunks, hmap]
  · rw [summarize_chunks, hmap]
    cases chunks with
    | nil => exact absurd rfl hne
    | cons c rest =>
      have hc : c ≠ [] := hcne c (by simp)
      cases rest with
      | nil => simpa [List.intercalate, List.intersperse] using hc
      | cons d tl =>
        simp [List.intercalate, List.intersperse]
        intro h1
        exact absurd h1 hc

/-- Witness for C8 at two concrete chunks with an always-failing capability. -/
theorem condensation_nonempty_on_total_failure_witness :
    summarize_chunks [toL "first chunk", toL "second chunk"]
        ([toL "first chunk", toL "second chunk"].map
          (fun c => chunk_summarize (fun p => Except.error (toL "429 " ++ p)) c (toL "T"))) =
      List.intercalate (toL "\n\n") [toL "first chunk", toL "second chunk"] ∧
    summarize_chunks [toL "first chunk", toL "second chunk"]
        ([toL "first chunk", toL "second chunk"].map
          (fun c => chunk_summarize (fun p => Except.error (toL "429 " ++ p)) c (toL "T"))) ≠
      [] :=
  condensation_nonempty_on_total_failure [toL "first chunk", toL "second chunk"] (toL "T")
    (fun p => toL "429 " ++ p) (by decide) (by decide)

/-- The (title, content) pair produced by the extraction pipeline.  Both
fields may be empty; empty content signals total extraction failure. -/
structure FetchResult where
  title : List Char
  content : List Char
deriving DecidableEq

/-- Strategy 1 of ContentFetcher.fetch_content: direct trafilatura fetch and
extraction.  trafFetch stands for trafilatura.fetch_url(url) (none covers
both a falsy return and a raised, caught exception), trafExtract for
trafilatura.extract on the downloaded document, getTitle for the
BeautifulSoup title lookup; title and content are stripped as in the source.
Every exception inside this strategy is caught by the surrounding except and
is modelled by the none outcomes of the abstract capabilities. -/
def trafStep (trafFetch : Option (List Char)) (trafExtract : List Char → Option (List Char))
    (getTitle : List Char → List Char) : Option FetchResult :=
  match trafFetch with
  | some downloaded =>
    if downloaded ≠ [] then
      match trafExtract downloaded with
      | some result =>
        if result ≠ [] then some ⟨strip (getTitle downloaded), strip result⟩ else none
      | none => none
    else none
  | none => none

/-- Strategies 2 and 3 of ContentFetcher.fetch_content share this shape: an
HTML fetch (fetch_with_regular_requests or fetch_with_cloudscraper, none on
failure or falsy body) followed by extract_content_from_html, succeeding
exactly when the extracted content field is non-empty.
extract_content_from_html catches every parse error internally and returns
an empty FetchResult, so it is embedded as a total abstract function. -/
def htmlStep (htmlFetch : Option (List Char)) (extractFromHtml : List Char → FetchResult) :
    Option FetchResult :=
  match htmlFetch with
  | some html =>
    if html ≠ [] then
      if (extractFromHtml html).content ≠ [] then some (extractFromHtml html) else none
    else none
  | none => none

/-- Embedding of ContentFetcher.fetch_content: the three strategies in fixed
order, stopping at the first success, with the empty FetchResult as the only
caller-visible failure. -/
def fetch_content (trafFetch : Option (List Char)) (trafExtract : List Char → Option (List Char))
    (getTitle : List Char → List Char) (regularFetch cloudFetch : Option (List Char))
    (extractFromHtml : List Char → FetchResult) : FetchResult :=
  match trafStep trafFetch trafExtract getTitle with
  | some r => r
  | none =>
    match htmlStep regularFetch extractFromHtml with
    | some r => r
    | none =>
      match htmlStep cloudFetch extractFromHtml with
      | some r => r
      | none => ⟨[], []⟩

/-- C5: fetch_content tries direct trafilatura extraction, then the disguised
regular-requests fetch, then the cloudscraper fetch, in that fixed order;
it returns the result of the first strategy that succeeds, returns exactly
the empty FetchResult when all three fail, and an html strategy succeeds
exactly when its fetched document extracts to non-empty content (the
function is total: every network or parse error is a none/empty outcome of
the abstract capabilities, never a propagated exception). -/
theorem fetch_content_cascade (tf : Option (List Char)) (te : List Char → Option (List Char))
    (gt : List Char → List Char) (rf cf : Option (List Char))
    (ex : List Char → FetchResult) :
    (∀ r, trafStep tf te gt = some r →
        fetch_content tf te gt rf cf ex = r) ∧
    (trafStep tf te gt = none → ∀ r, htmlStep rf ex = some r →
        fetch_content tf te gt rf cf ex = r) ∧
    (trafStep tf te gt = none → htmlStep rf ex = none → ∀ r, htmlStep cf ex = some r →
        fetch_content tf te gt rf cf ex = r) ∧
    (trafStep tf te gt = none → htmlStep rf ex = none → htmlStep cf ex = none →
        fetch_content tf te gt rf cf ex = ⟨[], []⟩) ∧
    (∀ (o : Option (List Char)) r, htmlStep o ex = some r →
        r.content ≠ [] ∧ ∃ html, o = some html ∧ r = ex html) := by
  refine ⟨?_, ?_, ?_, ?_, ?_⟩
  · intro r h; simp [fetch_content, h]
  · intro h1 r h2; simp [fetch_content, h1, h2]
  · intro h1 h2 r h3; simp [fetch_content, h1, h2, h3]
  · intro h1 h2 h3; simp [fetch_content, h1, h2, h3]
  · intro o r h
    cases o with
    | none => simp [htmlStep] at h
    | some html =>
      by_cases hh : html ≠ []
      · by_cases hc : (ex html).content ≠ []
        · simp [htmlStep, hh, hc] at h
          subst h
          exact ⟨hc, html, rfl, rfl⟩
        · simp [htmlStep, hh, hc] at h
      · simp [htmlStep, hh] at h

/-- Witness for C5: all strategies fail and the empty FetchResult is returned. -/
theorem fetch_content_cascade_witness :
    fetch_content none (fun _ => none) (fun _ => []) none none (fun _ => ⟨[], []⟩) =
      ⟨[], []⟩ :=
  (fetch_content_cascade none (fun _ => none) (fun _ => []) none none
    (fun _ => ⟨[], []⟩)).2.2.2.1 rfl rfl rfl

/-- The condensation stage of ContentRepurposer.repurpose (steps 2 to 4):
chunk the fetched content with the default max_tokens = 4000, summarize each
chunk through the capability, then join with summarize_chunks. -/
def condensedOf (fetched : FetchResult)
    (cap : List Char → Except (List Char) (List Char)) : List Char :=
  summarize_chunks (chunk_text fetched.content 4000)
    ((chunk_text fetched.content 4000).map (fun c => chunk_summarize cap c fetched.title))

/-- Ghost trace of capability invocations performed by the orchestrator, used
to state that the failure path performs no summarization and no generation
call. -/
inductive PipelineEvent where
  | summarizeCall (chunk : List Char)
  | generateCall (contentType : List Char)
deriving DecidableEq

/-- Python dict assignment results[k] = v on an insertion-ordered
association list: overwrite in place if the key exists, append otherwise. -/
def dictInsert (m : List (List Char × List Char)) (k v : List Char) :
    List (List Char × List Char) :=
  if m.any (fun p => p.1 == k) then m.map (fun p => if p.1 == k then (k, v) else p)
  else m ++ [(k, v)]

/-- Embedding of ContentRepurposer.repurpose.  fetched stands for the result
of self.fetcher.fetch_content(url); cap for GeminiHandler._call_with_retry,
shared by the summarization and generation calls.  The first component is
the results dict in insertion order, the second the ghost trace of
capability call sites (one summarizeCall per chunk, one generateCall per
requested type; the inter-call sleeps of the source affect timing only).
repurpose_from_text runs the identical pipeline on a caller-supplied
(title, content) pair without the empty-content guard, so every statement
below with non-empty content covers it as well. -/
def repurpose (fetched : FetchResult)
    (cap : List Char → Except (List Char) (List Char))
    (content_types : List (List Char))
    (custom_instructions : List (List Char × List Char)) :
    List (List Char × List Char) × List PipelineEvent :=
  if fetched.content = [] then
    ([(toL "error", toL "Failed to fetch content from URL")], [])
  else
    let chunks := chunk_text fetched.content 4000
    let condensed := condensedOf fetched cap
    let results := content_types.foldl
      (fun acc ct => dictInsert acc ct
        (create_repurposed_content cap ct condensed fetched.title
          (lookupD custom_instructions ct []))) []
    (results, chunks.map PipelineEvent.summarizeCall ++
      content_types.map PipelineEvent.generateCall)

/-- Folding dict insertions over keys disjoint from the accumulator appends
one entry per key in order. -/
theorem foldl_dictInsert (f : List Char → List Char) :
    ∀ (l : List (List Char)) (acc : List (List Char × List Char)),
      l.Nodup → (∀ k ∈ l, ∀ q ∈ acc, q.1 ≠ k) →
      l.foldl (fun a k => dictInsert a k (f k)) acc =
        acc ++ l.map (fun k => (k, f k)) := by
  intro l
  induction l with
  | nil => intro acc _ _; simp
  | cons k rest ih =>
    intro acc hnd hdisj
    have hany : (acc.any (fun p => p.1 == k)) = false := by
      rw [Bool.eq_false_iff]
      intro h
      rcases List.any_eq_true.mp h with ⟨q, hq, hqk⟩
      exact hdisj k (by simp) q hq (by simpa using hqk)
    rw [List.foldl_cons, dictInsert, if_neg (by simp [hany])]
    rw [ih (acc ++ [(k, f k)]) (List.Nodup.of_cons hnd) ?_]
    · simp
    · intro k2 hk2 q hq
      rcases List.mem_append.mp hq with hq | hq
      · exact hdisj k2 (by simp [hk2]) q hq
      · simp at hq
        subst hq
        intro he
        simp at he
        subst he
        exact (List.nodup_cons.mp hnd).1 hk2

/-- C6: when extraction yields empty content, repurpose returns the explicit
failure mapping holding only the error key, raises nothing, and performs no
chunking, summarization or generation call (the capability trace is empty). -/
theorem repurpose_fetch_failure (fetched : FetchResult)
    (cap : List Char → Except (List Char) (List Char))
    (content_types : List (List Char))
    (custom_instructions : List (List Char × List Char))
    (h : fetched.content = []) :
    repurpose fetched cap content_types custom_instructions =
      ([(toL "error", toL "Failed to fetch content from URL")], []) := by
  simp [repurpose, h]

/-- Witness for C6 at a concrete empty fetch result. -/
theorem repurpose_fetch_failure_witness :
    repurpose ⟨toL "A Title", []⟩ (fun p => Except.ok p)
        [toL "linkedin", toL "twitter"] [] =
      ([(toL "error", toL "Failed to fetch content from URL")], []) :=
  repurpose_fetch_failure ⟨toL "A Title", []⟩ (fun p => Except.ok p)
    [toL "linkedin", toL "twitter"] [] rfl

/-- C7: for non-empty content and distinct requested types, repurpose returns
one entry per requested type in the caller order, each holding the artifact
create_repurposed_content produced for that type; a type whose generation
call fails (its capability invocation errors, for instance after exhausting
retries) maps to its type-specific error marker while every other entry is
untouched. -/
theorem repurpose_per_type_isolation (fetched : FetchResult)
    (cap : List Char → Except (List Char) (List Char))
    (content_types : List (List Char))
    (custom_instructions : List (List Char × List Char))
    (hc : fetched.content ≠ []) (hnd : content_types.Nodup) :
    (repurpose fetched cap content_types custom_instructions).1 =
      content_types.map (fun ct =>
        (ct, create_repurposed_content cap ct (condensedOf fetched cap) fetched.title
          (lookupD custom_instructions ct []))) ∧
    (∀ ct ∈ content_types, ∀ p m,
      build_prompt ct (condensedOf fetched cap) fetched.title
          (lookupD custom_instructions ct []) = PromptOutcome.prompt p →
      cap p = Except.error m →
      (ct, ERROR_MARKER ct) ∈ (repurpose fetched cap content_types custom_instructions).1) := by
  have hmain : (repurpose fetched cap content_types custom_instructions).1 =
      content_types.map (fun ct =>
        (ct, create_repurposed_content cap ct (condensedOf fetched cap) fetched.title
          (lookupD custom_instructions ct []))) := by
    simp only [repurpose, if_neg hc]
    rw [foldl_dictInsert _ content_types [] hnd (by simp)]
    simp
  refine ⟨hmain, ?_⟩
  intro ct hct p m hbp herr
  rw [hmain]
  have : create_repurposed_content cap ct (condensedOf fetched cap) fetched.title
      (lookupD custom_instructions ct []) = ERROR_MARKER ct := by
    simp only [create_repurposed_content, hbp, herr]
  rw [← this]
  exact List.mem_map.mpr ⟨ct, hct, rfl⟩

set_option maxRecDepth 100000 in
/-- Witness for C7: two requested types with a capability that always fails,
so the result keeps both keys in order and the linkedin entry carries its
type-specific error marker. -/
theorem repurpose_per_type_isolation_witness :
    (repurpose ⟨toL "T", toL "body"⟩ (fun _ => Except.error (toL "429"))
        [toL "linkedin", toL "twitter"] []).1 =
      [toL "linkedin", toL "twitter"].map (fun ct =>
        (ct, create_repurposed_content (fun _ => Except.error (toL "429")) ct
          (condensedOf ⟨toL "T", toL "body"⟩ (fun _ => Except.error (toL "429")))
          (toL "T") (lookupD [] ct []))) ∧
    (toL "linkedin", ERROR_MARKER (toL "linkedin")) ∈
      (repurpose ⟨toL "T", toL "body"⟩ (fun _ => Except.error (toL "429"))
        [toL "linkedin", toL "twitter"] []).1 := by
  have h := repurpose_per_type_isolation ⟨toL "T", toL "body"⟩
    (fun _ => Except.error (toL "429")) [toL "linkedin", toL "twitter"] []
    (by decide) (by decide)
  refine ⟨h.1, ?_⟩
  have hb : isPromptB (build_prompt (toL "linkedin")
      (condensedOf ⟨toL "T", toL "body"⟩ (fun _ => Except.error (toL "429"))) (toL "T")
      (lookupD [] (toL "linkedin") [])) = true := by decide
  rcases hbp : build_prompt (toL "linkedin")
      (condensedOf ⟨toL "T", toL "body"⟩ (fun _ => Except.error (toL "429"))) (toL "T")
      (lookupD [] (toL "linkedin") []) with p | s
  · exact h.2 (toL "linkedin") (by simp) p (toL "429") hbp rfl
  · rw [hbp] at hb
    simp [isPromptB] at hb
